import Mathlib

/-!
Verification of the OpenClaw-Mobile core (gateway, browser session manager,
search pipeline) against its natural-language specification.

The TypeScript sources are shallowly embedded: JavaScript strings are modeled
as lists of characters (JSString), JavaScript Map objects as association
lists, impure platform capabilities (fetch, Date.now, URL parsing, the
browser engine) as explicit parameters, and fallible operations as Except or
Option values.  Every definition follows the corresponding source function;
file and line references are given in the doc comments.
-/

set_option maxRecDepth 4000

namespace OpenClaw

/-- JavaScript strings, modeled as lists of characters. -/
abbrev JSString := List Char

/-- JavaScript s.slice(0, stop) for an integer stop argument: a negative
stop counts from the end of the string (clamped at 0), a nonnegative stop
takes that many leading characters (clamped at the length). -/
def jsSliceTo (l : JSString) (stop : Int) : JSString :=
  if stop < 0 then l.take ((l.length : Int) + stop).toNat else l.take stop.toNat

/-- JavaScript s.lastIndexOf(c): index of the last occurrence of the
character c in l, or -1 when c does not occur. -/
def jsLastIndexOf (l : JSString) (c : Char) : Int :=
  match l.reverse.findIdx? (fun d => d == c) with
  | some i => (l.length : Int) - 1 - i
  | none => -1

-- ============================================
-- src/src/security/external-content.ts
-- ============================================

/-- Embedding of wrapWebContent (external-content.ts lines 14-28).  A falsy
(empty) content string is returned as the empty string; otherwise the content
is enclosed between the EXTERNAL_CONTENT and END_EXTERNAL_CONTENT markers,
with an optional source label.  A falsy (empty) source string yields no
label, matching the JavaScript truthiness test on the source parameter. -/
def sourceLabel (source : Option JSString) : JSString :=
  match source with
  | some s => if s = [] then [] else " [Source: ".toList ++ s ++ "]".toList
  | none => []

def wrapWebContent (content : JSString) (source : Option JSString) : JSString :=
  if content = [] then []
  else
    "<!-- EXTERNAL_CONTENT".toList ++ sourceLabel source ++ " -->\n".toList ++
      content ++ "\n<!-- END_EXTERNAL_CONTENT -->".toList

/-- Options record of truncateContent (external-content.ts lines 160-163). -/
structure TruncateOptions where
  preserveWords : Option Bool := none
  suffix : Option JSString := none
deriving DecidableEq

/-- Default truncation suffix of truncateContent (external-content.ts
line 169): a newline followed by an ellipsis marker, 23 characters. -/
def defaultTruncSuffix : JSString := "\n...[content truncated]".toList

/-- Embedding of truncateContent (external-content.ts lines 157-189).
The maximum length is an arbitrary integer, as in the JavaScript source,
and slicing follows JavaScript semantics (jsSliceTo).  The word-boundary
test lastSpace > availableLength * 0.8 of line 181 is modeled by the exact
rational comparison 5 * lastSpace > 4 * availableLength; the claims proved
below do not depend on which branch of that test is taken. -/
def truncateContent (content : JSString) (maxLength : Int)
    (options : TruncateOptions := {}) : JSString :=
  if content = [] ∨ (content.length : Int) ≤ maxLength then content
  else
    let suffix := options.suffix.getD defaultTruncSuffix
    let availableLength : Int := maxLength - suffix.length
    if availableLength ≤ 0 then jsSliceTo content maxLength
    else if options.preserveWords ≠ some false then
      let truncated := jsSliceTo content availableLength
      let lastSpace := jsLastIndexOf truncated ' '
      let truncated2 :=
        if 5 * lastSpace > 4 * availableLength then jsSliceTo truncated lastSpace
        else truncated
      truncated2 ++ suffix
    else
      jsSliceTo content availableLength ++ suffix

-- ============================================
-- src/src/agents/tools/web-search.ts : Jina Reader truncation
-- ============================================

/-- Maximum content length of the search pipeline (web-search.ts line 51). -/
def MAX_CONTENT_LENGTH : Nat := 5000

/-- Truncation marker appended by fetchWithJinaReader (web-search.ts
line 217). -/
def jinaTruncationMarker : JSString := "\n...[content truncated]".toList

/-- Embedding of the truncation step of fetchWithJinaReader (web-search.ts
lines 213-220): a successfully fetched body longer than MAX_CONTENT_LENGTH
is cut to its first MAX_CONTENT_LENGTH characters and suffixed with the
truncation marker; shorter bodies are returned unchanged. -/
def jinaTruncate (content : JSString) : JSString :=
  if content.length > MAX_CONTENT_LENGTH then
    content.take MAX_CONTENT_LENGTH ++ jinaTruncationMarker
  else content

/-- Embedding of fetchWithJinaReader (web-search.ts lines 184-225).  The
network transaction (fetch against the Jina Reader endpoint) is modeled by
the oracle parameter jinaFetch, which yields the raw response body when the
request succeeds with an ok status and none when the request fails or
returns a non-2xx status. -/
def fetchWithJinaReader (jinaFetch : JSString → Option JSString)
    (url : JSString) : Option JSString :=
  (jinaFetch url).map jinaTruncate

-- ============================================
-- Association-list model of JavaScript Map
-- ============================================

/-- JavaScript Map.get: value of the entry with the given key, if any. -/
def mapGet {K V : Type} [DecidableEq K] : List (K × V) → K → Option V
  | [], _ => none
  | (k2, v) :: rest, k => if k = k2 then some v else mapGet rest k

/-- JavaScript Map.set: replace the value at an existing key in place, or
append a new entry. -/
def mapSet {K V : Type} [DecidableEq K] : List (K × V) → K → V → List (K × V)
  | [], k, v => [(k, v)]
  | (k2, v2) :: rest, k, v =>
    if k = k2 then (k, v) :: rest else (k2, v2) :: mapSet rest k v

/-- JavaScript Map.delete: remove the entry with the given key, if any. -/
def mapDelete {K V : Type} [DecidableEq K] : List (K × V) → K → List (K × V)
  | [], _ => []
  | (k2, v2) :: rest, k => if k = k2 then rest else (k2, v2) :: mapDelete rest k

-- ============================================
-- src/src/agents/tools/web-shared.ts : cache
-- ============================================

/-- Embedding of CacheEntry (web-shared.ts lines 10-13).  Timestamps are
millisecond clock readings, modeled as integers. -/
structure CacheEntry (T : Type) where
  value : T
  timestamp : Int
deriving DecidableEq

/-- Embedding of readCache (web-shared.ts lines 28-37): a plain map lookup.
It returns the stored entry whenever one is present; it takes neither a TTL
nor a clock reading and performs no validity check. -/
def readCache {T : Type} (cache : List (JSString × CacheEntry T))
    (key : JSString) : Option (CacheEntry T) :=
  mapGet cache key

/-- Embedding of the synchronous effect of writeCache (web-shared.ts lines
39-57): store the value with the current clock reading as its timestamp.
The source additionally schedules a deferred deletion with setTimeout
(lines 51-56), a best-effort timer side effect outside the synchronous
state transition modeled here. -/
def writeCache {T : Type} (cache : List (JSString × CacheEntry T))
    (key : JSString) (value : T) (now : Int) : List (JSString × CacheEntry T) :=
  mapSet cache key { value := value, timestamp := now }

/-- Embedding of isCacheValid (web-shared.ts lines 59-67), with the Date.now
reading passed explicitly.  This function is exported by the source module
but is called from nowhere in the repository. -/
def isCacheValid {T : Type} (entry : Option (CacheEntry T)) (ttlMs : Int)
    (now : Int) : Bool :=
  match entry with
  | none => false
  | some e => decide (now - e.timestamp < ttlMs)

-- ============================================
-- src/src/agents/tools/web-shared.ts : normalizeCacheKey
-- ============================================

/-- ASCII lowercasing of one character, modeling String.prototype.toLowerCase
applied pointwise.  JavaScript lowercases the full Unicode range; outside
ASCII the two differ only on characters that the later [^a-z0-9_-]
replacement step rewrites to an underscore, so the properties proved below
are unaffected. -/
def asciiLower (c : Char) : Char :=
  if 65 ≤ c.toNat ∧ c.toNat ≤ 90 then Char.ofNat (c.toNat + 32) else c

/-- Character class of the JavaScript regular expression whitespace token
backslash-s: tab, line feed, vertical tab, form feed, carriage return,
space, no-break space, and the Unicode space separators. -/
def jsIsWhitespace (c : Char) : Bool :=
  decide (c.toNat = 9 ∨ c.toNat = 10 ∨ c.toNat = 11 ∨ c.toNat = 12 ∨
    c.toNat = 13 ∨ c.toNat = 32 ∨ c.toNat = 160 ∨ c.toNat = 0x1680 ∨
    (0x2000 ≤ c.toNat ∧ c.toNat ≤ 0x200a) ∨ c.toNat = 0x2028 ∨
    c.toNat = 0x2029 ∨ c.toNat = 0x202f ∨ c.toNat = 0x205f ∨
    c.toNat = 0x3000 ∨ c.toNat = 0xfeff)

/-- Character class [a-z0-9_-] of the final replacement step of
normalizeCacheKey (web-shared.ts line 82). -/
def allowedKeyChar (c : Char) : Bool :=
  decide ((97 ≤ c.toNat ∧ c.toNat ≤ 122) ∨ (48 ≤ c.toNat ∧ c.toNat ≤ 57) ∨
    c.toNat = 95 ∨ c.toNat = 45)

/-- JavaScript String.prototype.trim: drop whitespace from both ends. -/
def jsTrim (l : JSString) : JSString :=
  ((l.dropWhile jsIsWhitespace).reverse.dropWhile jsIsWhitespace).reverse

/-- Replacement of every maximal whitespace run by a single underscore,
modeling replace of the global regular expression backslash-s-plus with an
underscore (web-shared.ts line 81).  The boolean records whether the
previous character belonged to a whitespace run. -/
def collapseWs : Bool → JSString → JSString
  | _, [] => []
  | prevWs, c :: rest =>
    if jsIsWhitespace c then
      if prevWs then collapseWs true rest else '_' :: collapseWs true rest
    else c :: collapseWs false rest

/-- Embedding of normalizeCacheKey (web-shared.ts lines 77-84): lowercase,
trim, collapse whitespace runs to underscores, replace every character
outside [a-z0-9_-] by an underscore, and keep the first 256 characters. -/
def normalizeCacheKey (key : JSString) : JSString :=
  ((collapseWs false (jsTrim (key.map asciiLower))).map
    (fun c => if allowedKeyChar c then c else '_')).take 256

-- ============================================
-- src/src/agents/tools/web-search.ts : SearXNG search
-- ============================================

/-- Embedding of the SearXNGResult record (web-search.ts lines 92-98),
keeping the optional fields the pipeline reads; the unread engine and score
fields are omitted. -/
structure SearXNGResult where
  title : Option JSString := none
  url : Option JSString := none
  content : Option JSString := none
deriving DecidableEq

/-- Outcome of one provider request inside the searchWithSearXNG loop
(web-search.ts lines 134-171): the fetch or JSON parsing threw, the HTTP
status was not ok, or a JSON body was obtained whose results field may be
absent. -/
inductive ProviderResponse where
  | fetchFailed
  | httpNotOk
  | okJson (results : Option (List SearXNGResult))
deriving DecidableEq

/-- True exactly when the loop of searchWithSearXNG stops at a provider
with this response: an ok JSON body whose results array is present and
non-empty (web-search.ts line 160). -/
def providerHasResults : ProviderResponse → Bool
  | .okJson (some rs) => rs.length > 0
  | _ => false

/-- Embedding of searchWithSearXNG (web-search.ts lines 123-174) over an
explicit attempt order.  The source shuffles SEARXNG_INSTANCES with a
random comparator (line 132); the resulting order enters here as the list
argument, and the network behavior of each instance as the behavior oracle.
Providers are tried strictly in order; the first response with a non-empty
results array stops the loop, and its results are limited to count. -/
def searchWithSearXNG (behavior : String → ProviderResponse) (count : Nat) :
    List String → Option (List SearXNGResult × String)
  | [] => none
  | inst :: rest =>
    match behavior inst with
    | .okJson (some rs) =>
      if rs.length > 0 then some (rs.take count, inst)
      else searchWithSearXNG behavior count rest
    | _ => searchWithSearXNG behavior count rest

/-- Instances to which searchWithSearXNG issues a request, in order: every
instance up to and including the first one with a non-empty results array
(web-search.ts lines 134-171). -/
def queriedInstances (behavior : String → ProviderResponse) :
    List String → List String
  | [] => []
  | inst :: rest =>
    inst ::
      (if providerHasResults (behavior inst) then []
       else queriedInstances behavior rest)

-- ============================================
-- src/src/agents/tools/web-search.ts : runWebSearch
-- ============================================

/-- Parameters of runWebSearch (web-search.ts lines 252-259).  The count is
a natural number: the caller clamps it into [1, MAX_SEARCH_COUNT] via
resolveSearchCount before the call. -/
structure SearchParams where
  query : JSString
  count : Nat
  timeoutSeconds : Nat
  cacheTtlMs : Int
  language : Option JSString := none
  fetchContent : Option Bool := none
deriving DecidableEq

/-- JavaScript String(x) on an optional boolean. -/
def jsStringOfOptionBool : Option Bool → JSString
  | some true => "true".toList
  | some false => "false".toList
  | none => "undefined".toList

/-- The expression params.language OR-ELSE "default" of the cache-key
template (web-search.ts line 261); an empty language string is falsy and
also yields "default". -/
def langOrDefault : Option JSString → JSString
  | some l => if l = [] then "default".toList else l
  | none => "default".toList

/-- Raw cache-key template of runWebSearch (web-search.ts lines 260-262)
before normalization. -/
def cacheKeyRaw (p : SearchParams) : JSString :=
  "searxng:".toList ++ p.query ++ ":".toList ++ (Nat.repr p.count).toList ++
    ":".toList ++ langOrDefault p.language ++ ":".toList ++
    jsStringOfOptionBool p.fetchContent

/-- One mapped search result (the SearchResult record of web-search.ts
lines 107-113) as assembled by the result loop. -/
structure MappedResult where
  title : JSString
  url : JSString
  description : JSString
  content : Option JSString
  siteName : Option JSString
deriving DecidableEq

/-- Embedding of resolveSiteName (web-search.ts lines 231-240).  URL
parsing is a platform capability, modeled by the hostname oracle, which
returns the hostname of a parseable URL and none otherwise. -/
def resolveSiteName (hostname : JSString → Option JSString)
    (url : JSString) : Option JSString :=
  if url = [] then none else hostname url

/-- JavaScript x OR-ELSE undefined on an optional string: an absent or
empty string becomes undefined. -/
def orElseUndefined : Option JSString → Option JSString
  | some s => if s = [] then none else some s
  | none => none

/-- The source tag passed to wrapWebContent by the result loop. -/
def webSearchSource : JSString := "web_search".toList

/-- One iteration of the result-mapping loop of runWebSearch (web-search.ts
lines 295-317): extract title, url and description with empty-string
defaults, optionally fetch full content through the Jina Reader, and wrap
every network-originated field with provenance markers. -/
def mapSearchEntry (fetchContent : Option Bool)
    (jinaFetch : JSString → Option JSString)
    (hostname : JSString → Option JSString) (entry : SearXNGResult) :
    MappedResult :=
  let url := entry.url.getD []
  let title := entry.title.getD []
  let description := entry.content.getD []
  let rawContent : Option JSString :=
    if fetchContent ≠ some false ∧ url ≠ [] then
      orElseUndefined (fetchWithJinaReader jinaFetch url)
    else none
  { title := if title ≠ [] then wrapWebContent title (some webSearchSource) else []
    url := url
    description :=
      if description ≠ [] then wrapWebContent description (some webSearchSource)
      else []
    content :=
      match rawContent with
      | some c => if c = [] then none else some (wrapWebContent c (some webSearchSource))
      | none => none
    siteName := orElseUndefined (resolveSiteName hostname url) }

/-- Embedding of the payload record built by runWebSearch.  The
externalContent flag records the presence of the untrusted-content metadata
block of web-search.ts lines 325-330, which is a fixed record on the
success path and absent on the empty path. -/
structure SearchPayload where
  query : JSString
  provider : String
  instanceName : Option String
  count : Nat
  tookMs : Int
  error : Option JSString
  externalContent : Bool
  results : List MappedResult
deriving DecidableEq

/-- Cache of runWebSearch (SEARCH_CACHE, web-search.ts line 58). -/
abbrev SearchCache := List (JSString × CacheEntry SearchPayload)

/-- Payload returned and cached when no provider yields results
(web-search.ts lines 280-287). -/
def emptySearchPayload (p : SearchParams) (elapsed : Int) : SearchPayload :=
  { query := p.query
    provider := "searxng"
    instanceName := none
    count := 0
    tookMs := elapsed
    error := some "No results found from any SearXNG instance".toList
    externalContent := false
    results := [] }

/-- Embedding of runWebSearch (web-search.ts lines 252-336).  The order
argument is the shuffled provider order, behavior / jinaFetch / hostname
are the network and URL-parsing oracles, elapsed is the Date.now difference
at payload construction, and writeNow the Date.now reading inside
writeCache.  The boolean result component is the cached flag: true exactly
on the cache-hit path, where the stored payload is returned with cached set
(line 266); miss-path payloads carry no cached field. -/
def runWebSearch (p : SearchParams) (cache : SearchCache) (order : List String)
    (behavior : String → ProviderResponse)
    (jinaFetch : JSString → Option JSString)
    (hostname : JSString → Option JSString)
    (elapsed : Int) (writeNow : Int) : SearchPayload × Bool × SearchCache :=
  let cacheKey := normalizeCacheKey (cacheKeyRaw p)
  match readCache cache cacheKey with
  | some entry => (entry.value, true, cache)
  | none =>
    match searchWithSearXNG behavior p.count order with
    | none =>
      let payload := emptySearchPayload p elapsed
      (payload, false, writeCache cache cacheKey payload writeNow)
    | some (rs, inst) =>
      if rs.length = 0 then
        let payload := emptySearchPayload p elapsed
        (payload, false, writeCache cache cacheKey payload writeNow)
      else
        let mapped := rs.map (mapSearchEntry p.fetchContent jinaFetch hostname)
        let payload : SearchPayload :=
          { query := p.query
            provider := "searxng"
            instanceName := some inst
            count := mapped.length
            tookMs := elapsed
            error := none
            externalContent := true
            results := mapped }
        (payload, false, writeCache cache cacheKey payload writeNow)

-- ============================================
-- src/src/browser/service.ts
-- ============================================

/-- Embedding of a tracked BrowserSession (service.ts lines 104-109); the
browser, context and page handles are opaque external capabilities and are
not modeled. -/
structure BrowserSession where
  id : String
deriving DecidableEq

/-- Tracked state of BrowserService (service.ts lines 116-118): the session
map and the shutting-down flag.  The configuration record
BrowserServiceConfig (lines 86-102) carries no session-count limit and does
not enter the createSession control flow beyond launch options. -/
structure BrowserServiceState where
  sessions : List (String × BrowserSession)
  isShuttingDown : Bool
deriving DecidableEq

/-- Failure modes of createSession (service.ts lines 166-216): the
shutting-down rejection of line 168, or a launch error rethrown at
line 214. -/
inductive CreateSessionError where
  | shuttingDown
  | launchFailed
deriving DecidableEq

/-- The expression sessionId OR-ELSE generated-id of service.ts line 171;
an empty explicit id is falsy and also yields the generated id. -/
def resolveNewSessionId (sessionId : Option String) (generatedId : String) :
    String :=
  match sessionId with
  | some s => if s = "" then generatedId else s
  | none => generatedId

/-- Embedding of BrowserService.createSession (service.ts lines 166-216).
The generated id (Date.now plus a random suffix, line 171) and the outcome
of the browser launch (puppeteer.launch and page setup, lines 187-196) are
passed explicitly.  The only rejection tests are the shutting-down flag and
the launch outcome: no branch examines the number of tracked sessions. -/
def createSession (st : BrowserServiceState) (sessionId : Option String)
    (generatedId : String) (launchOk : Bool) :
    Except CreateSessionError (BrowserSession × BrowserServiceState) :=
  if st.isShuttingDown then .error .shuttingDown
  else
    let id := resolveNewSessionId sessionId generatedId
    if launchOk then
      let s : BrowserSession := { id := id }
      .ok (s, { st with sessions := mapSet st.sessions id s })
    else .error .launchFailed

/-- Embedding of BrowserService.closeSession (service.ts lines 314-330).
An unknown id returns immediately (line 317).  For a known id the
underlying context and browser close calls may fail; the source catches any
such error (lines 325-327) and deletes the bookkeeping entry in the finally
block (line 328), so the function is total and its result does not depend
on the closeOk outcome of the underlying close calls. -/
def closeSession (st : BrowserServiceState) (sessionId : String)
    (closeOk : Bool) : BrowserServiceState :=
  match mapGet st.sessions sessionId with
  | none => st
  | some _ => { st with sessions := mapDelete st.sessions sessionId }

-- ============================================
-- src/src/gateway/server.ts : WebSocket message handlers
-- ============================================

/-- Outbound gateway messages relevant to the browser handlers of
handleWebSocketMessage (server.ts lines 182-300).  The correlation id is
echoed from the request; a request without an id echoes undefined. -/
inductive WsResponse where
  | pong (id : Option String)
  | browserCreated (id : Option String) (sessionId : String)
  | browserContent (id : Option String) (content : JSString)
  | browserClosed (id : Option String) (success : Bool)
  | errorResp (id : Option String) (error : JSString)
deriving DecidableEq

/-- Error string sent when the browser service is disabled (server.ts
line 272 and the sibling handlers). -/
def browserDisabledError : JSString := "Browser service is disabled".toList

/-- Embedding of the browser.close branch of handleWebSocketMessage
(server.ts lines 267-291).  With the service enabled it awaits closeSession
and replies browser.closed with success true; closeSession is total (see
closeSession above), so the catch branch of lines 284-290 is unreachable
and no error response is ever produced for an unknown or already-closed
session id. -/
def handleBrowserClose (browserEnabled : Bool) (st : BrowserServiceState)
    (reqId : Option String) (sessionId : String) (closeOk : Bool) :
    WsResponse × BrowserServiceState :=
  if browserEnabled then
    (.browserClosed reqId true, closeSession st sessionId closeOk)
  else
    (.errorResp reqId browserDisabledError, st)

/-- Embedding of the browser.content branch of handleWebSocketMessage
(server.ts lines 241-265).  The getTextContent call is modeled by its
outcome: extracted text, or a thrown error (unknown session, page failure)
whose string form is sent back.  On success the content is limited to its
first 5000 characters before transmission (line 256). -/
def handleBrowserContent (browserEnabled : Bool) (reqId : Option String)
    (fetched : Except JSString JSString) : WsResponse :=
  if browserEnabled then
    match fetched with
    | .ok text => .browserContent reqId (text.take 5000)
    | .error e => .errorResp reqId e
  else .errorResp reqId browserDisabledError

-- ============================================
-- Shared helper lemmas
-- ============================================

theorem mapGet_mapSet_self {K V : Type} [DecidableEq K] (m : List (K × V))
    (k : K) (v : V) : mapGet (mapSet m k v) k = some v := by
  induction m with
  | nil => simp [mapSet, mapGet]
  | cons hd tl ih =>
    obtain ⟨k2, v2⟩ := hd
    by_cases h : k = k2
    · simp [mapSet, h, mapGet]
    · simp [mapSet, h, mapGet, ih]

theorem jsSliceTo_length_le (l : JSString) (stop : Int) :
    (jsSliceTo l stop).length ≤ l.length := by
  unfold jsSliceTo
  by_cases h : stop < 0 <;> simp [h, List.length_take]

theorem jsSliceTo_length_le_toNat (l : JSString) (stop : Int) (h : 0 ≤ stop) :
    (jsSliceTo l stop).length ≤ stop.toNat := by
  unfold jsSliceTo
  rw [if_neg (by omega)]
  simp [List.length_take]

-- ============================================
-- C7 : Jina Reader truncation policy
-- ============================================

/-- C7: for every extracted content string longer than 5000 characters, the
content-extraction step returns the content cut at the 5000-character
boundary followed by the explicit truncation marker, the marker characters
not being counted toward the 5000-character content limit; content of 5000
characters or fewer is returned unchanged with no marker. -/
theorem C7_jina_truncation_policy (content : JSString) :
    (content.length > MAX_CONTENT_LENGTH →
      jinaTruncate content =
        content.take MAX_CONTENT_LENGTH ++ jinaTruncationMarker ∧
      (content.take MAX_CONTENT_LENGTH).length ≤ MAX_CONTENT_LENGTH) ∧
    (content.length ≤ MAX_CONTENT_LENGTH → jinaTruncate content = content) := by
  constructor
  · intro h
    refine ⟨?_, ?_⟩
    · unfold jinaTruncate
      rw [if_pos h]
    · simp [List.length_take]
  · intro h
    unfold jinaTruncate
    rw [if_neg (by omega)]

/-- Closed instance of C7 at content of length 5001. -/
theorem C7_jina_truncation_policy_witness :
    (List.replicate 5001 'a').length > MAX_CONTENT_LENGTH ∧
    jinaTruncate (List.replicate 5001 'a') =
      List.replicate 5000 'a' ++ jinaTruncationMarker := by
  have h : (List.replicate 5001 'a').length > MAX_CONTENT_LENGTH := by
    rw [List.length_replicate]
    unfold MAX_CONTENT_LENGTH
    norm_num
  have h2 := (C7_jina_truncation_policy (List.replicate 5001 'a')).1 h
  refine ⟨h, ?_⟩
  rw [h2.1, List.take_replicate]
  have h3 : min MAX_CONTENT_LENGTH 5001 = 5000 := by
    unfold MAX_CONTENT_LENGTH
    norm_num
  rw [h3]

-- ============================================
-- C10 : wrapWebContent on empty and non-empty content
-- ============================================

/-- C10: wrapWebContent returns the empty string, with no provenance
markers, for empty content; for every non-empty content the result is the
original content enclosed between the EXTERNAL_CONTENT and
END_EXTERNAL_CONTENT markers (with the optional source label). -/
theorem C10_wrapWebContent_spec :
    (∀ source : Option JSString, wrapWebContent [] source = []) ∧
    (∀ (content : JSString) (source : Option JSString), content ≠ [] →
      wrapWebContent content source =
        "<!-- EXTERNAL_CONTENT".toList ++ sourceLabel source ++
          " -->\n".toList ++ content ++
          "\n<!-- END_EXTERNAL_CONTENT -->".toList) := by
  constructor
  · intro source
    simp [wrapWebContent]
  · intro content source h
    simp [wrapWebContent, h]

/-- Closed instance of C10 at one-character content with a source tag. -/
theorem C10_wrapWebContent_spec_witness :
    wrapWebContent "x".toList (some "web_search".toList) =
      "<!-- EXTERNAL_CONTENT".toList ++ sourceLabel (some "web_search".toList) ++
        " -->\n".toList ++ "x".toList ++
        "\n<!-- END_EXTERNAL_CONTENT -->".toList :=
  C10_wrapWebContent_spec.2 "x".toList (some "web_search".toList) (by decide)

-- ============================================
-- C4 : browser.content response capped at 5000 characters
-- ============================================

/-- C4: every successful browser.content response carries a content string
of length at most 5000 characters, regardless of the length of the text
extracted from the page. -/
theorem C4_browser_content_capped (reqId : Option String)
    (fetched : Except JSString JSString) (rid : Option String) (c : JSString)
    (h : handleBrowserContent true reqId fetched = .browserContent rid c) :
    c.length ≤ 5000 := by
  cases fetched with
  | ok text =>
    simp [handleBrowserContent] at h
    rw [← h.2]
    simp [List.length_take]
  | error e => simp [handleBrowserContent] at h

/-- Closed instance of C4 at a 6000-character extraction. -/
theorem C4_browser_content_capped_witness :
    (List.replicate 5000 'a' : JSString).length ≤ 5000 := by
  refine C4_browser_content_capped none (.ok (List.replicate 6000 'a')) none _ ?_
  have e : handleBrowserContent true none (Except.ok (List.replicate 6000 'a')) =
      WsResponse.browserContent none ((List.replicate 6000 'a').take 5000) := rfl
  rw [e, List.take_replicate]
  norm_num

-- ============================================
-- C3 : browser.close is idempotent and never errors
-- ============================================

/-- C3: with the browser service enabled, a browser.close request for any
session id, including unknown or already-closed ids, produces the success
response browser.closed with success true carrying the request id, never an
error response; and closeSession on an unknown id is a no-op that does not
fail. -/
theorem C3_browser_close_always_succeeds :
    (∀ (st : BrowserServiceState) (reqId : Option String) (sessionId : String)
        (closeOk : Bool),
      (handleBrowserClose true st reqId sessionId closeOk).1 =
        WsResponse.browserClosed reqId true) ∧
    (∀ (st : BrowserServiceState) (sessionId : String) (closeOk : Bool),
      mapGet st.sessions sessionId = none →
      closeSession st sessionId closeOk = st) := by
  constructor
  · intro st reqId sessionId closeOk
    simp [handleBrowserClose]
  · intro st sessionId closeOk h
    simp [closeSession, h]

/-- Closed instance of C3: closing an unknown session id on an empty
session map is a no-op. -/
theorem C3_browser_close_always_succeeds_witness :
    closeSession { sessions := [], isShuttingDown := false } "ghost" true =
      { sessions := [], isShuttingDown := false } :=
  C3_browser_close_always_succeeds.2
    { sessions := [], isShuttingDown := false } "ghost" true rfl

-- ============================================
-- C2 : createSession enforces no session ceiling (code bug)
-- ============================================

/-- C2 evaluation: createSession succeeds whenever the manager is not
shutting down and the launch succeeds, whatever the number of currently
tracked sessions.  The source has no configured maximum concurrent session
count and no branch of createSession examines the session map, so a call
made at any claimed ceiling creates an additional session instead of
failing. -/
theorem C2_createSession_ignores_session_count :
    (∀ (st : BrowserServiceState) (generatedId : String),
      st.isShuttingDown = false →
      createSession st none generatedId true =
        .ok ({ id := generatedId },
          { st with
            sessions := mapSet st.sessions generatedId { id := generatedId } })) ∧
    createSession
        { sessions := [("s1", { id := "s1" })], isShuttingDown := false }
        none "s2" true =
      .ok ({ id := "s2" },
        { sessions := [("s1", { id := "s1" }), ("s2", { id := "s2" })],
          isShuttingDown := false }) := by
  constructor
  · intro st generatedId h
    simp [createSession, h, resolveNewSessionId]
  · rfl

-- ============================================
-- C5 : sequential provider failover
-- ============================================

theorem searchWithSearXNG_all_fail (behavior : String → ProviderResponse)
    (count : Nat) (order : List String)
    (h : ∀ i ∈ order, providerHasResults (behavior i) = false) :
    searchWithSearXNG behavior count order = none := by
  induction order with
  | nil => rfl
  | cons a rest ih =>
    have ha := h a (List.mem_cons_self a rest)
    have hrest : ∀ i ∈ rest, providerHasResults (behavior i) = false :=
      fun i hi => h i (List.mem_cons_of_mem a hi)
    cases hb : behavior a with
    | fetchFailed => simp only [searchWithSearXNG, hb]; exact ih hrest
    | httpNotOk => simp only [searchWithSearXNG, hb]; exact ih hrest
    | okJson ors =>
      cases ors with
      | none => simp only [searchWithSearXNG, hb]; exact ih hrest
      | some rs =>
        rw [hb] at ha
        simp only [providerHasResults, decide_eq_false_iff_not] at ha
        simp only [searchWithSearXNG, hb]
        rw [if_neg ha]
        exact ih hrest

/-- C5: providers are tried strictly sequentially in the given (shuffled)
order; if every provider before inst fails (thrown request, non-2xx
status, absent or empty results) and inst returns a non-empty result
list, the pipeline returns the results of inst limited to the requested
count, and the set of providers actually queried is exactly the failing
prefix followed by inst — no provider after inst is contacted. -/
theorem C5_provider_failover (behavior : String → ProviderResponse)
    (count : Nat) (pre post : List String) (inst : String)
    (rs : List SearXNGResult)
    (hpre : ∀ i ∈ pre, providerHasResults (behavior i) = false)
    (hinst : behavior inst = .okJson (some rs)) (hne : rs ≠ []) :
    searchWithSearXNG behavior count (pre ++ inst :: post) =
      some (rs.take count, inst) ∧
    queriedInstances behavior (pre ++ inst :: post) = pre ++ [inst] := by
  have hlen : rs.length > 0 := List.length_pos.mpr hne
  induction pre with
  | nil =>
    have ht : providerHasResults (behavior inst) = true := by
      rw [hinst]
      simp [providerHasResults, hlen]
    constructor
    · rw [List.nil_append]
      simp only [searchWithSearXNG, hinst]
      rw [if_pos hlen]
    · rw [List.nil_append]
      simp [queriedInstances, ht]
  | cons a pre ih =>
    have ha := hpre a (List.mem_cons_self a pre)
    have hpre2 : ∀ i ∈ pre, providerHasResults (behavior i) = false :=
      fun i hi => hpre i (List.mem_cons_of_mem a hi)
    have ih2 := ih hpre2
    constructor
    · rw [List.cons_append]
      cases hb : behavior a with
      | fetchFailed => simp only [searchWithSearXNG, hb]; exact ih2.1
      | httpNotOk => simp only [searchWithSearXNG, hb]; exact ih2.1
      | okJson ors =>
        cases ors with
        | none => simp only [searchWithSearXNG, hb]; exact ih2.1
        | some rs2 =>
          rw [hb] at ha
          simp only [providerHasResults, decide_eq_false_iff_not] at ha
          simp only [searchWithSearXNG, hb]
          rw [if_neg ha]
          exact ih2.1
    · rw [List.cons_append]
      simp [queriedInstances, ha, ih2.2]

/-- Closed instance of C5: two failing providers followed by a succeeding
one and one further provider that is never contacted. -/
theorem C5_provider_failover_witness :
    searchWithSearXNG
        (fun i => if i = "c" then .okJson (some [{ title := some "t".toList }])
          else .httpNotOk) 5 (["a", "b"] ++ "c" :: ["d"]) =
      some ([{ title := some "t".toList }], "c") ∧
    queriedInstances
        (fun i => if i = "c" then .okJson (some [{ title := some "t".toList }])
          else .httpNotOk) (["a", "b"] ++ "c" :: ["d"]) =
      ["a", "b"] ++ ["c"] := by
  have h := C5_provider_failover
    (fun i => if i = "c" then .okJson (some [{ title := some "t".toList }])
      else .httpNotOk) 5 ["a", "b"] ["d"] "c" [{ title := some "t".toList }]
    (by intro i hi; fin_cases hi <;> rfl) (by rfl) (by simp)
  exact h

-- ============================================
-- C6 : empty result set is returned and cached
-- ============================================

/-- C6: when no provider yields results, runWebSearch returns (not throws)
a payload with empty results, count 0 and the explanatory error string, and
writes exactly that payload to the cache before returning it; reading the
written cache at the pipeline cache key yields exactly that payload. -/
theorem C6_empty_result_cached (p : SearchParams) (cache : SearchCache)
    (order : List String) (behavior : String → ProviderResponse)
    (jinaFetch : JSString → Option JSString)
    (hostname : JSString → Option JSString) (elapsed writeNow : Int)
    (hmiss : readCache cache (normalizeCacheKey (cacheKeyRaw p)) = none)
    (hfail : ∀ i ∈ order, providerHasResults (behavior i) = false) :
    runWebSearch p cache order behavior jinaFetch hostname elapsed writeNow =
      (emptySearchPayload p elapsed, false,
        writeCache cache (normalizeCacheKey (cacheKeyRaw p))
          (emptySearchPayload p elapsed) writeNow) ∧
    readCache
        (writeCache cache (normalizeCacheKey (cacheKeyRaw p))
          (emptySearchPayload p elapsed) writeNow)
        (normalizeCacheKey (cacheKeyRaw p)) =
      some { value := emptySearchPayload p elapsed, timestamp := writeNow } ∧
    (emptySearchPayload p elapsed).results = [] ∧
    (emptySearchPayload p elapsed).count = 0 ∧
    (emptySearchPayload p elapsed).error =
      some "No results found from any SearXNG instance".toList := by
  refine ⟨?_, mapGet_mapSet_self cache _ _, rfl, rfl, rfl⟩
  simp only [runWebSearch, hmiss,
    searchWithSearXNG_all_fail behavior p.count order hfail]

/-- Closed instance of C6: the query "test" with a single unreachable
provider, an empty cache, elapsed time 120 ms and write time 1000 ms. -/
theorem C6_empty_result_cached_witness :
    runWebSearch
        { query := "test".toList, count := 5, timeoutSeconds := 30,
          cacheTtlMs := 3600000 } [] ["https://searx.be"]
        (fun _ => .fetchFailed) (fun _ => none) (fun _ => none) 120 1000 =
      (emptySearchPayload
          { query := "test".toList, count := 5, timeoutSeconds := 30,
            cacheTtlMs := 3600000 } 120, false,
        writeCache []
          (normalizeCacheKey (cacheKeyRaw
            { query := "test".toList, count := 5, timeoutSeconds := 30,
              cacheTtlMs := 3600000 }))
          (emptySearchPayload
            { query := "test".toList, count := 5, timeoutSeconds := 30,
              cacheTtlMs := 3600000 } 120) 1000) ∧
    readCache
        (writeCache []
          (normalizeCacheKey (cacheKeyRaw
            { query := "test".toList, count := 5, timeoutSeconds := 30,
              cacheTtlMs := 3600000 }))
          (emptySearchPayload
            { query := "test".toList, count := 5, timeoutSeconds := 30,
              cacheTtlMs := 3600000 } 120) 1000)
        (normalizeCacheKey (cacheKeyRaw
          { query := "test".toList, count := 5, timeoutSeconds := 30,
            cacheTtlMs := 3600000 })) =
      some { value := emptySearchPayload
              { query := "test".toList, count := 5, timeoutSeconds := 30,
                cacheTtlMs := 3600000 } 120, timestamp := 1000 } := by
  have h := C6_empty_result_cached
    { query := "test".toList, count := 5, timeoutSeconds := 30,
      cacheTtlMs := 3600000 } [] ["https://searx.be"]
    (fun _ => .fetchFailed) (fun _ => none) (fun _ => none) 120 1000
    rfl (fun i _ => rfl)
  exact ⟨h.1, h.2.1⟩

-- ============================================
-- C1 : cache validity is not evaluated at read time (code bug)
-- ============================================

/-- Concrete search parameters for the stale-cache evaluation: TTL one
hour (3600000 ms). -/
def staleParams : SearchParams :=
  { query := "test".toList, count := 5, timeoutSeconds := 30,
    cacheTtlMs := 3600000, language := none, fetchContent := none }

/-- Cache key computed by runWebSearch for staleParams. -/
def staleKey : JSString := normalizeCacheKey (cacheKeyRaw staleParams)

/-- Payload stored in the cache at time 0. -/
def stalePayload : SearchPayload := emptySearchPayload staleParams 120

/-- Cache state after writeCache at time 0, as reachable when the deferred
setTimeout cleanup of writeCache has not yet run (timers are best-effort
and may be delayed arbitrarily). -/
def staleCache : SearchCache := writeCache [] staleKey stalePayload 0

/-- C1 evaluation: an entry written at time 0 with TTL 3600000 ms and read
at time 7200000 ms (age two hours, twice the TTL, hence invalid by the
read-time rule now - timestamp < ttl as computed by the unused isCacheValid
function) is nevertheless returned by readCache and treated by runWebSearch
as a cache hit with the cached flag set: neither readCache nor runWebSearch
consults the TTL or the clock when deciding a hit. -/
theorem C1_stale_entry_returned_as_hit :
    readCache staleCache staleKey =
      some { value := stalePayload, timestamp := 0 } ∧
    isCacheValid (readCache staleCache staleKey) staleParams.cacheTtlMs
      7200000 = false ∧
    runWebSearch staleParams staleCache ["https://searx.be"]
        (fun _ => .fetchFailed) (fun _ => none) (fun _ => none) 0 7200000 =
      (stalePayload, true, staleCache) := by
  have hread : readCache staleCache staleKey =
      some { value := stalePayload, timestamp := 0 } :=
    mapGet_mapSet_self [] staleKey _
  refine ⟨hread, ?_, ?_⟩
  · rw [hread]
    rfl
  · have hread2 : readCache staleCache (normalizeCacheKey (cacheKeyRaw staleParams)) =
        some { value := stalePayload, timestamp := 0 } := hread
    simp only [runWebSearch, hread2]

-- ============================================
-- C8 : idempotence of truncateContent
-- ============================================

/-- Counterexample to C8 as stated over every maximum length: with the
JavaScript semantics of slice(0, end) for a negative end, truncateContent
applied twice at maximum length -1 differs from one application.  Indeed
truncateContent "ab" (-1) slices to "a" (length 2 - 1), and a second
application slices to the empty string. -/
theorem C8_truncateContent_not_idempotent :
    truncateContent (truncateContent "ab".toList (-1)) (-1) ≠
      truncateContent "ab".toList (-1) := by
  decide

theorem truncateContent_eq_self_of_le (l : JSString) (m2 : Int)
    (opts : TruncateOptions) (h : (l.length : Int) ≤ m2) :
    truncateContent l m2 opts = l := by
  simp only [truncateContent]
  rw [if_pos (Or.inr h)]

theorem truncateContent_length_le (content : JSString) (m : Int)
    (opts : TruncateOptions) (hm : 0 ≤ m) :
    ((truncateContent content m opts).length : Int) ≤ m := by
  by_cases h1 : content = [] ∨ (content.length : Int) ≤ m
  · have he : truncateContent content m opts = content := by
      simp only [truncateContent]
      rw [if_pos h1]
    rw [he]
    rcases h1 with h | h
    · rw [h]
      simpa using hm
    · exact h
  · simp only [truncateContent]
    rw [if_neg h1]
    by_cases h2 : m - ((opts.suffix.getD defaultTruncSuffix).length : Int) ≤ 0
    · rw [if_pos h2]
      have h3 := jsSliceTo_length_le_toNat content m hm
      have h4 : ((jsSliceTo content m).length : Int) ≤ (m.toNat : Int) := by
        exact_mod_cast h3
      rwa [Int.toNat_of_nonneg hm] at h4
    · rw [if_neg h2]
      push_neg at h2
      have havail : (0 : Int) ≤ m - ((opts.suffix.getD defaultTruncSuffix).length : Int) :=
        le_of_lt h2
      have hsl : ((jsSliceTo content
          (m - ((opts.suffix.getD defaultTruncSuffix).length : Int))).length : Int) ≤
          m - ((opts.suffix.getD defaultTruncSuffix).length : Int) := by
        have h5 := jsSliceTo_length_le_toNat content
          (m - ((opts.suffix.getD defaultTruncSuffix).length : Int)) havail
        have h6 : ((jsSliceTo content
            (m - ((opts.suffix.getD defaultTruncSuffix).length : Int))).length : Int) ≤
            (((m - ((opts.suffix.getD defaultTruncSuffix).length : Int)).toNat) : Int) := by
          exact_mod_cast h5
        rwa [Int.toNat_of_nonneg havail] at h6
      by_cases h4 : opts.preserveWords ≠ some false
      · rw [if_pos h4]
        by_cases h6 : 5 * jsLastIndexOf
            (jsSliceTo content (m - ((opts.suffix.getD defaultTruncSuffix).length : Int))) ' ' >
            4 * (m - ((opts.suffix.getD defaultTruncSuffix).length : Int))
        · rw [if_pos h6]
          have h7 : ((jsSliceTo
              (jsSliceTo content (m - ((opts.suffix.getD defaultTruncSuffix).length : Int)))
              (jsLastIndexOf (jsSliceTo content
                (m - ((opts.suffix.getD defaultTruncSuffix).length : Int))) ' ')).length : Int) ≤
              ((jsSliceTo content
                (m - ((opts.suffix.getD defaultTruncSuffix).length : Int))).length : Int) := by
            exact_mod_cast jsSliceTo_length_le _ _
          rw [List.length_append]
          push_cast
          omega
        · rw [if_neg h6]
          rw [List.length_append]
          push_cast
          omega
      · rw [if_neg h4]
        rw [List.length_append]
        push_cast
        omega

/-- C8 amended: truncateContent is idempotent for every nonnegative maximum
length (and any second maximum length at least as large, with the same
options): the result of truncateContent at maximum length m with 0 ≤ m has
length at most m, so a second application returns it unchanged.  For
negative maximum lengths the original claim fails (see the counterexample
above), since JavaScript slice(0, end) with negative end removes trailing
characters repeatedly. -/
theorem C8_truncateContent_idempotent (content : JSString) (m m2 : Int)
    (opts : TruncateOptions) (hm : 0 ≤ m) (hm2 : m ≤ m2) :
    truncateContent (truncateContent content m opts) m2 opts =
      truncateContent content m opts :=
  truncateContent_eq_self_of_le _ _ _
    (le_trans (truncateContent_length_le content m opts hm) hm2)

/-- Closed instance of C8 amended at a 17-character content and maximum
length 5 with default options. -/
theorem C8_truncateContent_idempotent_witness :
    (0 : Int) ≤ 5 ∧ (5 : Int) ≤ 5 ∧
    truncateContent (truncateContent "hello world hello".toList 5) 5 =
      truncateContent "hello world hello".toList 5 :=
  ⟨by decide, by decide,
    C8_truncateContent_idempotent "hello world hello".toList 5 5 {}
      (by decide) (by decide)⟩

-- ============================================
-- C9 : normalizeCacheKey characterization
-- ============================================

theorem asciiLower_toNat_of_upper (c : Char)
    (h : 65 ≤ c.toNat ∧ c.toNat ≤ 90) : (asciiLower c).toNat = c.toNat + 32 := by
  unfold asciiLower
  rw [if_pos h]
  have hv : (c.toNat + 32).isValidChar := Or.inl (by omega)
  unfold Char.ofNat
  rw [dif_pos hv]
  rfl

theorem asciiLower_eq_self (c : Char)
    (h : ¬(65 ≤ c.toNat ∧ c.toNat ≤ 90)) : asciiLower c = c := by
  unfold asciiLower
  rw [if_neg h]

theorem allowed_asciiLower_fixed (c : Char) (h : allowedKeyChar c = true) :
    asciiLower c = c := by
  apply asciiLower_eq_self
  simp only [allowedKeyChar, decide_eq_true_eq] at h
  omega

theorem allowed_not_ws (c : Char) (h : allowedKeyChar c = true) :
    jsIsWhitespace c = false := by
  simp only [allowedKeyChar, decide_eq_true_eq] at h
  simp only [jsIsWhitespace, decide_eq_false_iff_not]
  omega

theorem ws_asciiLower (c : Char) :
    jsIsWhitespace (asciiLower c) = jsIsWhitespace c := by
  by_cases h : 65 ≤ c.toNat ∧ c.toNat ≤ 90
  · have h2 := asciiLower_toNat_of_upper c h
    have e1 : jsIsWhitespace (asciiLower c) = false := by
      simp only [jsIsWhitespace, decide_eq_false_iff_not]
      omega
    have e2 : jsIsWhitespace c = false := by
      simp only [jsIsWhitespace, decide_eq_false_iff_not]
      omega
    rw [e1, e2]
  · rw [asciiLower_eq_self c h]

theorem map_asciiLower_of_allowed (l : JSString)
    (h : ∀ c ∈ l, allowedKeyChar c = true) : l.map asciiLower = l := by
  induction l with
  | nil => rfl
  | cons a t ih =>
    rw [List.map_cons, allowed_asciiLower_fixed a (h a (List.mem_cons_self a t)),
      ih (fun c hc => h c (List.mem_cons_of_mem a hc))]

theorem map_replaceDisallowed_of_allowed (l : JSString)
    (h : ∀ c ∈ l, allowedKeyChar c = true) :
    l.map (fun c => if allowedKeyChar c then c else '_') = l := by
  induction l with
  | nil => rfl
  | cons a t ih =>
    have ha := h a (List.mem_cons_self a t)
    simp [ha, ih (fun c hc => h c (List.mem_cons_of_mem a hc))]

theorem dropWhile_ws_of_not_ws (l : JSString)
    (h : ∀ c ∈ l, jsIsWhitespace c = false) :
    l.dropWhile jsIsWhitespace = l := by
  cases l with
  | nil => rfl
  | cons a t =>
    rw [List.dropWhile_cons, h a (List.mem_cons_self a t)]
    simp

theorem jsTrim_of_not_ws (l : JSString)
    (h : ∀ c ∈ l, jsIsWhitespace c = false) : jsTrim l = l := by
  unfold jsTrim
  rw [dropWhile_ws_of_not_ws l h,
    dropWhile_ws_of_not_ws l.reverse (fun c hc => h c (List.mem_reverse.mp hc)),
    List.reverse_reverse]

theorem collapseWs_of_not_ws (b : Bool) (l : JSString)
    (h : ∀ c ∈ l, jsIsWhitespace c = false) : collapseWs b l = l := by
  induction l generalizing b with
  | nil => rfl
  | cons a t ih =>
    simp only [collapseWs]
    rw [h a (List.mem_cons_self a t)]
    simp [ih false (fun c hc => h c (List.mem_cons_of_mem a hc))]

theorem normalizeCacheKey_allowed (k : JSString) :
    ∀ c ∈ normalizeCacheKey k, allowedKeyChar c = true := by
  intro c hc
  unfold normalizeCacheKey at hc
  have hc2 := List.take_subset _ _ hc
  obtain ⟨a, _, rfl⟩ := List.mem_map.mp hc2
  by_cases h : allowedKeyChar a = true
  · simp [h]
  · simp [h]
    decide

theorem normalizeCacheKey_length_le (k : JSString) :
    (normalizeCacheKey k).length ≤ 256 := by
  unfold normalizeCacheKey
  simp [List.length_take]

theorem normalizeCacheKey_eq_self (l : JSString)
    (hall : ∀ c ∈ l, allowedKeyChar c = true) (hlen : l.length ≤ 256) :
    normalizeCacheKey l = l := by
  have hws : ∀ c ∈ l, jsIsWhitespace c = false :=
    fun c hc => allowed_not_ws c (hall c hc)
  unfold normalizeCacheKey
  rw [map_asciiLower_of_allowed l hall, jsTrim_of_not_ws l hws,
    collapseWs_of_not_ws false l hws, map_replaceDisallowed_of_allowed l hall,
    List.take_of_length_le hlen]

theorem dropWhile_ws_append (s q : JSString)
    (h : ∀ c ∈ s, jsIsWhitespace c = true) :
    (s ++ q).dropWhile jsIsWhitespace = q.dropWhile jsIsWhitespace := by
  induction s with
  | nil => rfl
  | cons a t ih =>
    rw [List.cons_append, List.dropWhile_cons, h a (List.mem_cons_self a t),
      if_pos rfl]
    exact ih (fun c hc => h c (List.mem_cons_of_mem a hc))

theorem dropWhile_ws_append_of_exists (p X : JSString)
    (h : ∃ c ∈ p, jsIsWhitespace c = false) :
    (p ++ X).dropWhile jsIsWhitespace = p.dropWhile jsIsWhitespace ++ X := by
  induction p with
  | nil =>
    obtain ⟨c, hc, _⟩ := h
    cases hc
  | cons a t ih =>
    by_cases ha : jsIsWhitespace a = true
    · have h2 : ∃ c ∈ t, jsIsWhitespace c = false := by
        obtain ⟨c, hc, hf⟩ := h
        cases List.mem_cons.mp hc with
        | inl e =>
          subst e
          rw [ha] at hf
          cases hf
        | inr ht => exact ⟨c, ht, hf⟩
      rw [List.cons_append, List.dropWhile_cons, ha, if_pos rfl,
        List.dropWhile_cons, ha, if_pos rfl]
      exact ih h2
    · have ha2 : jsIsWhitespace a = false := by
        cases hb : jsIsWhitespace a
        · rfl
        · exact absurd hb ha
      rw [List.cons_append, List.dropWhile_cons, ha2, List.dropWhile_cons, ha2]
      simp

theorem collapseWs_true_ws (s q : JSString)
    (h : ∀ c ∈ s, jsIsWhitespace c = true) :
    collapseWs true (s ++ q) = collapseWs true q := by
  induction s with
  | nil => rfl
  | cons a t ih =>
    rw [List.cons_append]
    simp only [collapseWs]
    rw [h a (List.mem_cons_self a t)]
    simp only [if_pos rfl]
    exact ih (fun c hc => h c (List.mem_cons_of_mem a hc))

theorem collapseWs_run_invariant (s1 s2 : JSString)
    (h1ne : s1 ≠ []) (h2ne : s2 ≠ [])
    (h1 : ∀ c ∈ s1, jsIsWhitespace c = true)
    (h2 : ∀ c ∈ s2, jsIsWhitespace c = true) :
    ∀ (p q : JSString) (b : Bool),
      collapseWs b (p ++ s1 ++ q) = collapseWs b (p ++ s2 ++ q) := by
  intro p
  induction p with
  | nil =>
    intro q b
    obtain ⟨a1, t1, e1⟩ := List.exists_cons_of_ne_nil h1ne
    obtain ⟨a2, t2, e2⟩ := List.exists_cons_of_ne_nil h2ne
    subst e1
    subst e2
    rw [List.nil_append, List.nil_append, List.cons_append, List.cons_append]
    simp only [collapseWs]
    rw [h1 a1 (List.mem_cons_self a1 t1), h2 a2 (List.mem_cons_self a2 t2)]
    simp only [if_pos rfl]
    rw [collapseWs_true_ws t1 q (fun c hc => h1 c (List.mem_cons_of_mem a1 hc)),
      collapseWs_true_ws t2 q (fun c hc => h2 c (List.mem_cons_of_mem a2 hc))]
    simp
  | cons a p ih =>
    intro q b
    rw [List.cons_append, List.cons_append, List.cons_append, List.cons_append]
    simp only [collapseWs]
    by_cases ha : jsIsWhitespace a = true
    · rw [ha]
      simp only [if_pos rfl]
      have ih1 := ih q true
      rw [List.append_assoc, List.append_assoc] at ih1
      cases b <;> simp [ih1]
    · have ha2 : jsIsWhitespace a = false := by
        cases hb : jsIsWhitespace a
        · rfl
        · exact absurd hb ha
      rw [ha2]
      have ih2 := ih q false
      rw [List.append_assoc, List.append_assoc] at ih2
      simp [ih2]

theorem jsTrimCollapse_run_invariant (s1 s2 : JSString)
    (h1ne : s1 ≠ []) (h2ne : s2 ≠ [])
    (h1 : ∀ c ∈ s1, jsIsWhitespace c = true)
    (h2 : ∀ c ∈ s2, jsIsWhitespace c = true) (p q : JSString) :
    collapseWs false (jsTrim (p ++ s1 ++ q)) =
      collapseWs false (jsTrim (p ++ s2 ++ q)) := by
  by_cases hp : ∀ c ∈ p, jsIsWhitespace c = true
  · have hall1 : ∀ c ∈ p ++ s1, jsIsWhitespace c = true := by
      intro c hc
      cases List.mem_append.mp hc with
      | inl h => exact hp c h
      | inr h => exact h1 c h
    have hall2 : ∀ c ∈ p ++ s2, jsIsWhitespace c = true := by
      intro c hc
      cases List.mem_append.mp hc with
      | inl h => exact hp c h
      | inr h => exact h2 c h
    unfold jsTrim
    rw [dropWhile_ws_append (p ++ s1) q hall1, dropWhile_ws_append (p ++ s2) q hall2]
  · have hex : ∃ c ∈ p, jsIsWhitespace c = false := by
      push_neg at hp
      obtain ⟨c, hc, hne⟩ := hp
      exact ⟨c, hc, by
        cases hb : jsIsWhitespace c
        · rfl
        · exact absurd hb hne⟩
    have e1 : (p ++ s1 ++ q).dropWhile jsIsWhitespace =
        p.dropWhile jsIsWhitespace ++ (s1 ++ q) := by
      rw [List.append_assoc]
      exact dropWhile_ws_append_of_exists p (s1 ++ q) hex
    have e2 : (p ++ s2 ++ q).dropWhile jsIsWhitespace =
        p.dropWhile jsIsWhitespace ++ (s2 ++ q) := by
      rw [List.append_assoc]
      exact dropWhile_ws_append_of_exists p (s2 ++ q) hex
    unfold jsTrim
    rw [e1, e2]
    by_cases hq : ∀ c ∈ q, jsIsWhitespace c = true
    · have hall1 : ∀ c ∈ (s1 ++ q).reverse, jsIsWhitespace c = true := by
        intro c hc
        cases List.mem_append.mp (List.mem_reverse.mp hc) with
        | inl h => exact h1 c h
        | inr h => exact hq c h
      have hall2 : ∀ c ∈ (s2 ++ q).reverse, jsIsWhitespace c = true := by
        intro c hc
        cases List.mem_append.mp (List.mem_reverse.mp hc) with
        | inl h => exact h2 c h
        | inr h => exact hq c h
      have g1 : (p.dropWhile jsIsWhitespace ++ (s1 ++ q)).reverse.dropWhile
          jsIsWhitespace =
          (p.dropWhile jsIsWhitespace).reverse.dropWhile jsIsWhitespace := by
        rw [List.reverse_append]
        exact dropWhile_ws_append (s1 ++ q).reverse _ hall1
      have g2 : (p.dropWhile jsIsWhitespace ++ (s2 ++ q)).reverse.dropWhile
          jsIsWhitespace =
          (p.dropWhile jsIsWhitespace).reverse.dropWhile jsIsWhitespace := by
        rw [List.reverse_append]
        exact dropWhile_ws_append (s2 ++ q).reverse _ hall2
      rw [g1, g2]
    · have hexq : ∃ c ∈ q.reverse, jsIsWhitespace c = false := by
        push_neg at hq
        obtain ⟨c, hc, hne⟩ := hq
        exact ⟨c, List.mem_reverse.mpr hc, by
          cases hb : jsIsWhitespace c
          · rfl
          · exact absurd hb hne⟩
      have f1 : ((p.dropWhile jsIsWhitespace ++ (s1 ++ q)).reverse).dropWhile
          jsIsWhitespace =
          q.reverse.dropWhile jsIsWhitespace ++
            (s1.reverse ++ (p.dropWhile jsIsWhitespace).reverse) := by
        rw [List.reverse_append, List.reverse_append, List.append_assoc]
        exact dropWhile_ws_append_of_exists q.reverse _ hexq
      have f2 : ((p.dropWhile jsIsWhitespace ++ (s2 ++ q)).reverse).dropWhile
          jsIsWhitespace =
          q.reverse.dropWhile jsIsWhitespace ++
            (s2.reverse ++ (p.dropWhile jsIsWhitespace).reverse) := by
        rw [List.reverse_append, List.reverse_append, List.append_assoc]
        exact dropWhile_ws_append_of_exists q.reverse _ hexq
      have g1 : (q.reverse.dropWhile jsIsWhitespace ++
            (s1.reverse ++ (p.dropWhile jsIsWhitespace).reverse)).reverse =
          (p.dropWhile jsIsWhitespace ++ s1) ++
            (q.reverse.dropWhile jsIsWhitespace).reverse := by
        rw [List.reverse_append, List.reverse_append, List.reverse_reverse,
          List.reverse_reverse]
      have g2 : (q.reverse.dropWhile jsIsWhitespace ++
            (s2.reverse ++ (p.dropWhile jsIsWhitespace).reverse)).reverse =
          (p.dropWhile jsIsWhitespace ++ s2) ++
            (q.reverse.dropWhile jsIsWhitespace).reverse := by
        rw [List.reverse_append, List.reverse_append, List.reverse_reverse,
          List.reverse_reverse]
      rw [f1, f2, g1, g2]
      exact collapseWs_run_invariant s1 s2 h1ne h2ne h1 h2
        (p.dropWhile jsIsWhitespace)
        ((q.reverse.dropWhile jsIsWhitespace).reverse) false

/-- C9: normalizeCacheKey is idempotent; every output has length at most
256 and consists only of characters from [a-z0-9_-]; two inputs that agree
after lowercasing map to the same key (case insensitivity); and replacing
one non-empty whitespace run by another non-empty whitespace run anywhere
in the input leaves the key unchanged (whitespace-run insensitivity). -/
theorem C9_normalizeCacheKey_spec :
    (∀ k : JSString,
      normalizeCacheKey (normalizeCacheKey k) = normalizeCacheKey k) ∧
    (∀ k : JSString, (normalizeCacheKey k).length ≤ 256) ∧
    (∀ k : JSString, ∀ c ∈ normalizeCacheKey k, allowedKeyChar c = true) ∧
    (∀ x y : JSString, x.map asciiLower = y.map asciiLower →
      normalizeCacheKey x = normalizeCacheKey y) ∧
    (∀ p q s1 s2 : JSString, s1 ≠ [] → s2 ≠ [] →
      (∀ c ∈ s1, jsIsWhitespace c = true) →
      (∀ c ∈ s2, jsIsWhitespace c = true) →
      normalizeCacheKey (p ++ s1 ++ q) = normalizeCacheKey (p ++ s2 ++ q)) := by
  refine ⟨?_, normalizeCacheKey_length_le, normalizeCacheKey_allowed, ?_, ?_⟩
  · intro k
    exact normalizeCacheKey_eq_self _ (normalizeCacheKey_allowed k)
      (normalizeCacheKey_length_le k)
  · intro x y h
    unfold normalizeCacheKey
    rw [h]
  · intro p q s1 s2 h1ne h2ne h1 h2
    have m1ne : s1.map asciiLower ≠ [] := fun h => h1ne (List.map_eq_nil_iff.mp h)
    have m2ne : s2.map asciiLower ≠ [] := fun h => h2ne (List.map_eq_nil_iff.mp h)
    have m1 : ∀ c ∈ s1.map asciiLower, jsIsWhitespace c = true := by
      intro c hc
      obtain ⟨a, ha, rfl⟩ := List.mem_map.mp hc
      rw [ws_asciiLower]
      exact h1 a ha
    have m2 : ∀ c ∈ s2.map asciiLower, jsIsWhitespace c = true := by
      intro c hc
      obtain ⟨a, ha, rfl⟩ := List.mem_map.mp hc
      rw [ws_asciiLower]
      exact h2 a ha
    unfold normalizeCacheKey
    rw [List.map_append, List.map_append, List.map_append, List.map_append]
    rw [jsTrimCollapse_run_invariant (s1.map asciiLower) (s2.map asciiLower)
      m1ne m2ne m1 m2 (p.map asciiLower) (q.map asciiLower)]

/-- Closed instance of C9: the inputs AB and ab share a key, and replacing
one space between a and b by two spaces leaves the key unchanged. -/
theorem C9_normalizeCacheKey_spec_witness :
    "AB".toList.map asciiLower = "ab".toList.map asciiLower ∧
    normalizeCacheKey "AB".toList = normalizeCacheKey "ab".toList ∧
    normalizeCacheKey ("a".toList ++ " ".toList ++ "b".toList) =
      normalizeCacheKey ("a".toList ++ "  ".toList ++ "b".toList) :=
  ⟨by decide,
   C9_normalizeCacheKey_spec.2.2.2.1 "AB".toList "ab".toList (by decide),
   C9_normalizeCacheKey_spec.2.2.2.2 "a".toList "b".toList " ".toList
     "  ".toList (by decide) (by decide) (by decide) (by decide)⟩

end OpenClaw
